import Mathlib

/-!
Verification model of `crates/binder/src/lib.rs` (foundry binder).

Pure data (paths, URLs, references, builders) is translated directly from
the Rust source.  Effectful collaborators (git checkout, tempdir creation,
process spawning, the compiler, the binding generator) are represented by a
`World` record supplying the outcome of each external call, and every
function that performs I/O in the source additionally returns the ordered
list of `Effect`s it attempted, so that frame and fail-fast properties can
be stated about the trace.  Panics (`unwrap`/`expect`) are modelled with
`Option`: a `none` result stands for a panic.
-/

namespace FoundryBinder

/-- Filesystem paths are modelled as strings (the structure of `PathBuf` is
irrelevant to the claims). -/
abbrev PathBuf := String

/-- Model of `url::Url`: the raw text plus the result of `path_segments()`,
which is `none` exactly for cannot-be-a-base URLs. -/
structure Url where
  raw : String
  pathSegments : Option (List String)
deriving DecidableEq, Repr

/-- Modelled from the spec: `crate::utils::GitReference` is not under the
reviewed sources; the spec describes the Reference as the tagged variant
`{Branch(name) | Tag(name) | Rev(identifier)}` whose default resolves to the
remote default branch tip. -/
inductive GitReference
  | DefaultBranch
  | Branch (name : String)
  | Tag (name : String)
  | Rev (r : String)
deriving DecidableEq, Repr

/-- `Default::default()` for `GitReference`: the remote default branch. -/
instance : Inhabited GitReference := ⟨GitReference.DefaultBranch⟩

/-- Modelled from the spec: `crate::utils::GitRemote` is not under the
reviewed sources; the spec describes the Remote Handle as `{url}`. -/
structure GitRemote where
  url : Url
deriving DecidableEq, Repr

/-- `GitRemote::new` constructor (from the builder call site). -/
def GitRemote.new (url : Url) : GitRemote := ⟨url⟩

/-- Model of a created `tempfile::TempDir`: just its path. -/
structure TempDir where
  path : PathBuf
deriving DecidableEq, Repr

/-- `RepositoryDestination`: caller-supplied persistent path or ephemeral
temporary directory. -/
inductive RepositoryDestination
  | Path (p : PathBuf)
  | Temp (dir : TempDir)
deriving DecidableEq, Repr

/-- `impl AsRef<Path> for RepositoryDestination`. -/
def RepositoryDestination.asRef : RepositoryDestination → PathBuf
  | RepositoryDestination.Path p => p
  | RepositoryDestination.Temp dir => dir.path

/-- `Repository`: remote handle, reference, optional git database path and
checkout destination. -/
structure Repository where
  repo : GitRemote
  rev : GitReference
  db_path : Option PathBuf
  dest : RepositoryDestination
deriving DecidableEq, Repr

/-- Model of `foundry_config::Config` restricted to the single field the
binder reads and writes: the project root (`__root`). -/
structure Config where
  root : PathBuf
deriving DecidableEq, Repr

/-- Model of the compiler project handle: the artifacts directory
(`project.paths.artifacts`, returned by `artifacts_path()`). -/
structure Project where
  artifacts : PathBuf
deriving DecidableEq, Repr

/-- Model of `std::process::Output` as returned by `Command::output()`. -/
structure CommandOutput where
  exitCode : Int
  stdout : String
  stderr : String
deriving DecidableEq, Repr

/-- Model of the compiler output: whether it has compiler errors, whether it
has warnings, and its formatted `Display` text. -/
structure CompileOutput where
  hasCompilerErrors : Bool
  hasWarnings : Bool
  formatted : String
deriving DecidableEq, Repr

/-- Observable external effects attempted by the binder, in order. -/
inductive Effect
  | Checkout (url : Url) (rev : GitReference) (db_path : Option PathBuf) (dest : PathBuf)
  | CreateTempDir (pre : String)
  | RunCommand (argv : List String) (cwd : PathBuf)
  | CreateDirAll (dir : PathBuf)
  | Compile (root : PathBuf)
  | GenerateBindings (artifacts : PathBuf)
  | WriteBindings (module : PathBuf)
deriving DecidableEq, Repr

/-- Outcomes of the external collaborators: git checkout-and-extract,
tempdir creation, config loading, process spawning, `config.project()`,
compilation, binding generation and binding writing.  `Except.error` is the
fallible outcome the source propagates with `?`. -/
structure World where
  checkout : Url → GitReference → Option PathBuf → PathBuf → Except String Unit
  tempdir : String → Except String TempDir
  loadConfig : PathBuf → Config
  spawn : List String → PathBuf → Except String CommandOutput
  project : Config → Except String Project
  compile : Project → Except String CompileOutput
  generateBindings : PathBuf → Except String Unit
  writeBindings : PathBuf → Except String Unit

/-- Whether an `Except` value is `ok`. -/
def exceptIsOk {ε α : Type} : Except ε α → Bool
  | Except.ok _ => true
  | Except.error _ => false

/-- `SourceLocation`: local path or remote repository. -/
inductive SourceLocation
  | Local (p : PathBuf)
  | Remote (r : Repository)
deriving DecidableEq, Repr

/-- Modelled from the spec for its callees: `Repository::checkout` delegates
to `GitRemote::checkout` and `copy_to` from `crate::utils`, which is not
part of the reviewed sources; the whole checkout-and-extract sequence is
represented as one environment call carrying the remote URL, the reference,
the optional database path and the destination directory. -/
def Repository.checkout (self : Repository) (w : World) : Except String Unit :=
  w.checkout self.repo.url self.rev self.db_path self.dest.asRef

/-- `SourceLocation::get`: a `Local` path is returned unchanged with no
effect; a `Remote` repository is checked out and the destination directory
is returned. -/
def SourceLocation.get (self : SourceLocation) (w : World) :
    Except String PathBuf × List Effect :=
  match self with
  | SourceLocation.Local p => (Except.ok p, [])
  | SourceLocation.Remote r =>
    match r.checkout w with
    | Except.error e =>
      (Except.error e, [Effect.Checkout r.repo.url r.rev r.db_path r.dest.asRef])
    | Except.ok _ =>
      (Except.ok r.dest.asRef, [Effect.Checkout r.repo.url r.rev r.db_path r.dest.asRef])

/-- `RepositoryBuilder` accumulator. -/
structure RepositoryBuilder where
  repo : GitRemote
  rev : GitReference
  dest : Option PathBuf
  db_path : Option PathBuf
deriving DecidableEq, Repr

/-- `RepositoryBuilder::new`. -/
def RepositoryBuilder.new (url : Url) : RepositoryBuilder :=
  { repo := GitRemote.new url, rev := default, dest := none, db_path := none }

/-- `RepositoryBuilder::branch`. -/
def RepositoryBuilder.branch (self : RepositoryBuilder) (b : String) : RepositoryBuilder :=
  { self with rev := GitReference.Branch b }

/-- `RepositoryBuilder::tag`. -/
def RepositoryBuilder.tag (self : RepositoryBuilder) (t : String) : RepositoryBuilder :=
  { self with rev := GitReference.Tag t }

/-- `RepositoryBuilder::rev` (primed because `rev` is a field projection). -/
def RepositoryBuilder.rev' (self : RepositoryBuilder) (r : String) : RepositoryBuilder :=
  { self with rev := GitReference.Rev r }

/-- `RepositoryBuilder::dest` (renamed because `dest` is a field projection). -/
def RepositoryBuilder.setDest (self : RepositoryBuilder) (d : PathBuf) : RepositoryBuilder :=
  { self with dest := some d }

/-- `RepositoryBuilder::database`. -/
def RepositoryBuilder.database (self : RepositoryBuilder) (d : PathBuf) : RepositoryBuilder :=
  { self with db_path := some d }

/-- `RepositoryBuilder::build`.  With a caller-supplied destination it is
pure assembly; otherwise it takes the last path segment of the remote URL
(`path_segments().unwrap().last().unwrap()`, `none` result = panic) and
creates a temporary directory on disk (`expect` on failure = panic,
recorded as a `CreateTempDir` effect). -/
def RepositoryBuilder.build (self : RepositoryBuilder) (w : World) :
    Option Repository × List Effect :=
  match self.dest with
  | some d =>
    (some { repo := self.repo, rev := self.rev, db_path := self.db_path,
            dest := RepositoryDestination.Path d }, [])
  | none =>
    match self.repo.url.pathSegments with
    | none => (none, [])
    | some segs =>
      match segs.getLast? with
      | none => (none, [])
      | some name =>
        match w.tempdir name with
        | Except.error _ => (none, [Effect.CreateTempDir name])
        | Except.ok dir =>
          (some { repo := self.repo, rev := self.rev, db_path := self.db_path,
                  dest := RepositoryDestination.Temp dir }, [Effect.CreateTempDir name])

/-- `Binder`: all options of the generation process. -/
structure Binder where
  location : SourceLocation
  deployable : Bool
  keep_artifacts : Option PathBuf
  commands : List (List String)
  config : Option Config
  bindings : Option PathBuf

/-- `Binder::new`. -/
def Binder.new (location : SourceLocation) : Binder :=
  { location := location, deployable := true, keep_artifacts := none,
    commands := [], config := none, bindings := none }

/-- `Binder::command`: append one hook command. -/
def Binder.command (self : Binder) (cmd : List String) : Binder :=
  { self with commands := self.commands ++ [cmd] }

/-- `Binder::set_deployable`. -/
def Binder.set_deployable (self : Binder) (deployable : Bool) : Binder :=
  { self with deployable := deployable }

/-- `Binder::keep_artifacts` (primed because of the field projection). -/
def Binder.keep_artifacts' (self : Binder) (p : PathBuf) : Binder :=
  { self with keep_artifacts := some p }

/-- `Binder::bindings` (primed because of the field projection). -/
def Binder.bindings' (self : Binder) (p : PathBuf) : Binder :=
  { self with bindings := some p }

/-- `Binder::config` (primed because of the field projection). -/
def Binder.config' (self : Binder) (c : Config) : Binder :=
  { self with config := some c }

/-- Lines 151-156 of `generate`: either the user config with its root
overwritten by the resolved project path, or the config loaded with that
root. -/
def Binder.effectiveConfig (self : Binder) (w : World) (proj : PathBuf) : Config :=
  match self.config with
  | some c => { c with root := proj }
  | none => w.loadConfig proj

/-- Lines 174-177 of `generate`: overwrite the artifacts directory when a
retention path was configured. -/
def Binder.applyKeepArtifacts (self : Binder) (p : Project) : Project :=
  match self.keep_artifacts with
  | some ka => { p with artifacts := ka }
  | none => p

/-- Effect of the ignored `create_dir_all` on the retention path. -/
def Binder.keepEffects (self : Binder) : List Effect :=
  match self.keep_artifacts with
  | some ka => [Effect.CreateDirAll ka]
  | none => []

/-- Lines 158-169 of `generate`: run the hook commands in order.  An empty
command aborts with the literal message; `Command::output()` aborts only
when the spawn itself fails (its `Err` case) — the exit status carried by a
successful `Output` is never examined, exactly as in the source. -/
def runCommands (w : World) (root : PathBuf) :
    List (List String) → Except String Unit × List Effect
  | [] => (Except.ok (), [])
  | args :: rest =>
    if args.isEmpty then (Except.error "Command can\x27t be empty", [])
    else
      match w.spawn args root with
      | Except.error e => (Except.error e, [Effect.RunCommand args root])
      | Except.ok _ =>
        let r := runCommands w root rest
        (r.1, Effect.RunCommand args root :: r.2)

/-- `Binder::generate`: resolve the source, compute the effective config,
run hooks, build the compiler project, optionally redirect artifacts,
compile, fail on compiler errors, generate bindings from the artifacts path
and write them to the configured module path (default `src/contracts`). -/
def Binder.generate (self : Binder) (w : World) : Except String Unit × List Effect :=
  let t1 := (self.location.get w).2
  match (self.location.get w).1 with
  | Except.error e => (Except.error e, t1)
  | Except.ok proj =>
    let cfg := self.effectiveConfig w proj
    let t2 := (runCommands w cfg.root self.commands).2
    match (runCommands w cfg.root self.commands).1 with
    | Except.error e => (Except.error e, t1 ++ t2)
    | Except.ok _ =>
      match w.project cfg with
      | Except.error e => (Except.error e, t1 ++ t2)
      | Except.ok p0 =>
        let pr := self.applyKeepArtifacts p0
        let t3 := t1 ++ t2 ++ self.keepEffects ++ [Effect.Compile cfg.root]
        match w.compile pr with
        | Except.error e => (Except.error e, t3)
        | Except.ok compiled =>
          if compiled.hasCompilerErrors then
            (Except.error ("Compiled with errors:\n" ++ compiled.formatted), t3)
          else
            match w.generateBindings pr.artifacts with
            | Except.error e => (Except.error e, t3 ++ [Effect.GenerateBindings pr.artifacts])
            | Except.ok _ =>
              let module := self.bindings.getD "src/contracts"
              (w.writeBindings module,
               t3 ++ [Effect.GenerateBindings pr.artifacts, Effect.WriteBindings module])

/-! Concrete fixtures used by counterexamples and witnesses. -/

/-- Remote URL with two path segments. -/
def tUrl : Url :=
  { raw := "https://github.com/aave/aave-v3-core",
    pathSegments := some ["aave", "aave-v3-core"] }

/-- Cannot-be-a-base URL: `path_segments()` is `none`. -/
def uMail : Url := { raw := "mailto:dev@example.org", pathSegments := none }

/-- Environment in which every collaborator succeeds; the spawned command
`false` reports exit code 1 and every other command exit code 0. -/
def tWorld : World :=
  { checkout := fun _ _ _ _ => Except.ok ()
    tempdir := fun n => Except.ok { path := "tmp-" ++ n }
    loadConfig := fun p => { root := p }
    spawn := fun args _ =>
      if args = [("false" : String)] then
        Except.ok { exitCode := 1, stdout := "", stderr := "" }
      else
        Except.ok { exitCode := 0, stdout := "", stderr := "" }
    project := fun _ => Except.ok { artifacts := "out" }
    compile := fun _ =>
      Except.ok { hasCompilerErrors := false, hasWarnings := true, formatted := "" }
    generateBindings := fun _ => Except.ok ()
    writeBindings := fun _ => Except.ok () }

/-- Like `tWorld` but the compiler reports errors with diagnostics `E1`. -/
def wErr : World :=
  { tWorld with
    compile := fun _ =>
      Except.ok { hasCompilerErrors := true, hasWarnings := false, formatted := "E1" } }

/-- Binder over a local project with hook commands `[["false"], ["echo", "hi"]]`. -/
def bHooks : Binder :=
  ((Binder.new (SourceLocation.Local "proj")).command ["false"]).command ["echo", "hi"]

/-- Binder over a local project whose second hook command is the empty vector. -/
def bEmptyHook : Binder :=
  { Binder.new (SourceLocation.Local "proj") with commands := [["a"], [], ["b"]] }

/-- Binder over a local project with no hook commands. -/
def bPlain : Binder := Binder.new (SourceLocation.Local "proj")

/-- Concrete remote repository with a persistent destination. -/
def rRemote : Repository :=
  { repo := GitRemote.new tUrl, rev := GitReference.Tag "v1", db_path := none,
    dest := RepositoryDestination.Path "dst" }

/-! Helper lemmas about effect traces. -/

/-- Every effect recorded by `SourceLocation::get` is a checkout. -/
theorem get_effects_shape (loc : SourceLocation) (w : World) :
    ∀ e ∈ (loc.get w).2, ∃ u rv db d, e = Effect.Checkout u rv db d := by
  intro e he
  cases loc with
  | Local p => simp [SourceLocation.get] at he
  | Remote r =>
    cases hw : r.checkout w with
    | error msg =>
      simp [SourceLocation.get, hw] at he
      exact ⟨_, _, _, _, he⟩
    | ok u =>
      simp [SourceLocation.get, hw] at he
      exact ⟨_, _, _, _, he⟩

/-- Every effect recorded by the hook-command stage is a `RunCommand` in the
resolved root, and its argv is one of the commands strictly before the first
empty command. -/
theorem runCommands_effects_shape (w : World) (root : PathBuf) :
    ∀ cmds, ∀ e ∈ (runCommands w root cmds).2,
      ∃ args, e = Effect.RunCommand args root ∧
        args ∈ cmds.takeWhile (fun c => !c.isEmpty) := by
  intro cmds
  induction cmds with
  | nil => intro e he; simp [runCommands] at he
  | cons c rest ih =>
    intro e he
    by_cases hc : c.isEmpty
    · simp [runCommands, hc] at he
    · rw [Bool.not_eq_true] at hc
      cases hs : w.spawn c root with
      | error msg =>
        simp [runCommands, hc, hs] at he
        exact ⟨c, he, by simp [List.takeWhile_cons, hc]⟩
      | ok o =>
        simp only [runCommands, hc, Bool.false_eq_true, if_false, hs, List.mem_cons] at he
        rcases he with he | he
        · exact ⟨c, he, by simp [List.takeWhile_cons, hc]⟩
        · obtain ⟨args, ha, hm⟩ := ih e he
          exact ⟨args, ha, by simp [List.takeWhile_cons, hc, hm]⟩

/-- Every effect recorded by the artifacts-retention step is a directory
creation. -/
theorem keepEffects_shape (b : Binder) :
    ∀ e ∈ b.keepEffects, ∃ p, e = Effect.CreateDirAll p := by
  intro e he
  cases hk : b.keep_artifacts with
  | none => simp [Binder.keepEffects, hk] at he
  | some ka =>
    simp [Binder.keepEffects, hk] at he
    exact ⟨ka, he⟩

/-- The hook-command stage fails whenever the list contains the empty
command. -/
theorem runCommands_error_of_mem_nil (w : World) (root : PathBuf) :
    ∀ cmds, [] ∈ cmds → exceptIsOk (runCommands w root cmds).1 = false := by
  intro cmds
  induction cmds with
  | nil => intro h; simp at h
  | cons c rest ih =>
    intro h
    by_cases hc : c.isEmpty
    · simp [runCommands, hc, exceptIsOk]
    · rw [Bool.not_eq_true] at hc
      have hrest : [] ∈ rest := by
        rcases List.mem_cons.mp h with h | h
        · subst h; simp [List.isEmpty] at hc
        · exact h
      cases hs : w.spawn c root with
      | error msg => simp [runCommands, hc, hs, exceptIsOk]
      | ok o => simp [runCommands, hc, hs, exceptIsOk] at ih ⊢; exact ih hrest

/-- When the list contains the empty command and every command before the
first empty one spawns successfully, the hook-command stage fails with the
literal empty-command message. -/
theorem runCommands_empty_msg (w : World) (root : PathBuf) :
    ∀ cmds, [] ∈ cmds →
      (∀ c ∈ cmds.takeWhile (fun c => !c.isEmpty), exceptIsOk (w.spawn c root) = true) →
      (runCommands w root cmds).1 = Except.error "Command can\x27t be empty" := by
  intro cmds
  induction cmds with
  | nil => intro h; simp at h
  | cons c rest ih =>
    intro h hok
    by_cases hc : c.isEmpty
    · simp [runCommands, hc]
    · rw [Bool.not_eq_true] at hc
      have hrest : [] ∈ rest := by
        rcases List.mem_cons.mp h with h | h
        · subst h; simp [List.isEmpty] at hc
        · exact h
      have hcok : exceptIsOk (w.spawn c root) = true := by
        refine hok c ?_
        simp [List.takeWhile_cons, hc]
      cases hs : w.spawn c root with
      | error msg => rw [hs] at hcok; simp [exceptIsOk] at hcok
      | ok o =>
        have hrec := ih hrest (fun d hd => hok d (by simp [List.takeWhile_cons, hc, hd]))
        simp [runCommands, hc, hs, hrec]

/-! C10 — `Binder::new` defaults. -/

/-- C10: for every source location, `Binder::new` sets `deployable := true`,
an empty hook-command list, no compiler config, no artifacts-retention path
and no bindings output path. -/
theorem binder_new_defaults (loc : SourceLocation) :
    (Binder.new loc).location = loc ∧ (Binder.new loc).deployable = true ∧
    (Binder.new loc).keep_artifacts = none ∧ (Binder.new loc).commands = [] ∧
    (Binder.new loc).config = none ∧ (Binder.new loc).bindings = none :=
  ⟨rfl, rfl, rfl, rfl, rfl, rfl⟩

/-! C3 — the `deployable` flag is never read by `generate`. -/

/-- C3: `generate` is entirely independent of the `deployable` flag — two
binders differing only in the value passed to `set_deployable` produce the
same result and the same effect trace, so the flag does not affect binding
generation (contradicting the documentation of `set_deployable`). -/
theorem generate_ignores_deployable (b : Binder) (w : World) (d₁ d₂ : Bool) :
    Binder.generate (b.set_deployable d₁) w = Binder.generate (b.set_deployable d₂) w := by
  cases b
  rfl

/-! C4 — reference setters are last-write-wins. -/

/-- C4: `.tag` followed by `.branch` leaves the branch reference; each of
`branch`/`tag`/`rev` fully overwrites any previously set reference kind;
and `build` carries the final reference into the `Repository` unchanged. -/
theorem builder_reference_last_write_wins :
    (∀ (b : RepositoryBuilder) (t s : String),
       ((b.tag t).branch s).rev = GitReference.Branch s) ∧
    (∀ (b : RepositoryBuilder) (s : String),
       (b.branch s).rev = GitReference.Branch s ∧
       (b.tag s).rev = GitReference.Tag s ∧
       (b.rev' s).rev = GitReference.Rev s) ∧
    (∀ (b : RepositoryBuilder) (w : World) (r : Repository),
       (b.build w).1 = some r → r.rev = b.rev) := by
  refine ⟨fun b t s => rfl, fun b s => ⟨rfl, rfl, rfl⟩, fun b w r h => ?_⟩
  cases hd : b.dest with
  | some d =>
    simp only [RepositoryBuilder.build, hd] at h
    injection h with h
    subst h
    rfl
  | none =>
    cases hp : b.repo.url.pathSegments with
    | none => simp [RepositoryBuilder.build, hd, hp] at h
    | some segs =>
      cases hl : segs.getLast? with
      | none => simp [RepositoryBuilder.build, hd, hp, hl] at h
      | some name =>
        cases ht : w.tempdir name with
        | error msg => simp [RepositoryBuilder.build, hd, hp, hl, ht] at h
        | ok dir =>
          simp only [RepositoryBuilder.build, hd, hp, hl, ht] at h
          injection h with h
          subst h
          rfl

/-- C4 witness: the concrete builder `.tag "v1"` then `.branch "main"` with
a destination builds a repository whose reference is the branch `main`. -/
theorem builder_reference_last_write_wins_witness :
    ({ repo := GitRemote.new tUrl, rev := GitReference.Branch "main", db_path := none,
       dest := RepositoryDestination.Path "dst" } : Repository).rev
      = GitReference.Branch "main" :=
  builder_reference_last_write_wins.2.2
    ((((RepositoryBuilder.new tUrl).tag "v1").branch "main").setDest "dst") tWorld
    { repo := GitRemote.new tUrl, rev := GitReference.Branch "main", db_path := none,
      dest := RepositoryDestination.Path "dst" } rfl

/-! C9 — `build` is partial when no destination is set. -/

/-- C9: with no destination set, `build` panics (modelled as `none`) when
the remote URL has no path segments, when the segment list has no last
element, or when tempdir creation fails; with a destination set it always
succeeds with that persistent path. -/
theorem build_panics_without_dest :
    (∀ (b : RepositoryBuilder) (w : World),
       b.dest = none → b.repo.url.pathSegments = none → (b.build w).1 = none) ∧
    (∀ (b : RepositoryBuilder) (w : World) (segs : List String) (name : String),
       b.dest = none → b.repo.url.pathSegments = some segs →
       segs.getLast? = some name → exceptIsOk (w.tempdir name) = false →
       (b.build w).1 = none) ∧
    (∀ (b : RepositoryBuilder) (w : World) (d : PathBuf),
       b.dest = some d →
       (b.build w).1 = some { repo := b.repo, rev := b.rev, db_path := b.db_path,
                              dest := RepositoryDestination.Path d }) := by
  refine ⟨fun b w hd hp => ?_, fun b w segs name hd hp hl ht => ?_, fun b w d hd => ?_⟩
  · simp [RepositoryBuilder.build, hd, hp]
  · cases hw : w.tempdir name with
    | error msg => simp [RepositoryBuilder.build, hd, hp, hl, hw]
    | ok dir => rw [hw] at ht; simp [exceptIsOk] at ht
  · simp [RepositoryBuilder.build, hd]

/-- C9 witness: building from the cannot-be-a-base URL with no destination
panics. -/
theorem build_panics_without_dest_witness :
    ((RepositoryBuilder.new uMail).build tWorld).1 = none :=
  build_panics_without_dest.1 (RepositoryBuilder.new uMail) tWorld rfl rfl

/-! C2 — `build` and I/O. -/

/-- C2 counterexample: for the concrete builder over `tUrl` with no
destination, `build` attempts a temporary-directory creation on disk — its
effect trace is nonempty, refuting that `build()` never touches the
filesystem. -/
theorem build_without_dest_does_io :
    ((RepositoryBuilder.new tUrl).build tWorld).2 = [Effect.CreateTempDir "aave-v3-core"] ∧
    ((RepositoryBuilder.new tUrl).build tWorld).2 ≠ [] := by
  constructor
  · rfl
  · intro h
    rw [show ((RepositoryBuilder.new tUrl).build tWorld).2
          = [Effect.CreateTempDir "aave-v3-core"] from rfl] at h
    cases h

/-- C2 amended: `build` is pure data assembly — no effects at all — exactly
when a destination has been set; when no destination is set, every effect
it records is the creation of one temporary directory on disk. -/
theorem build_pure_iff_dest_set :
    (∀ (b : RepositoryBuilder) (w : World) (d : PathBuf), b.dest = some d →
       b.build w = (some { repo := b.repo, rev := b.rev, db_path := b.db_path,
                           dest := RepositoryDestination.Path d }, [])) ∧
    (∀ (b : RepositoryBuilder) (w : World) (e : Effect), b.dest = none →
       e ∈ (b.build w).2 → ∃ n, e = Effect.CreateTempDir n) := by
  refine ⟨fun b w d hd => by simp [RepositoryBuilder.build, hd], fun b w e hd he => ?_⟩
  cases hp : b.repo.url.pathSegments with
  | none => simp [RepositoryBuilder.build, hd, hp] at he
  | some segs =>
    cases hl : segs.getLast? with
    | none => simp [RepositoryBuilder.build, hd, hp, hl] at he
    | some name =>
      cases hw : w.tempdir name with
      | error msg =>
        simp [RepositoryBuilder.build, hd, hp, hl, hw] at he
        exact ⟨name, he⟩
      | ok dir =>
        simp [RepositoryBuilder.build, hd, hp, hl, hw] at he
        exact ⟨name, he⟩

/-- C2 amended witness: with a destination set, `build` returns the
persistent repository and records no effect. -/
theorem build_pure_iff_dest_set_witness :
    ((RepositoryBuilder.new tUrl).setDest "dst").build tWorld
      = (some { repo := GitRemote.new tUrl, rev := GitReference.DefaultBranch,
                db_path := none, dest := RepositoryDestination.Path "dst" }, []) :=
  build_pure_iff_dest_set.1 ((RepositoryBuilder.new tUrl).setDest "dst") tWorld "dst" rfl

/-! C8 — `SourceLocation::get`. -/

/-- C8: resolving a `Local` location returns the stored path unchanged with
no effect (in particular no checkout); resolving a `Remote` location
records exactly the checkout-and-extract call and, when it succeeds,
returns the destination directory of the repository. -/
theorem sourceLocation_get_resolution :
    (∀ (p : PathBuf) (w : World),
       SourceLocation.get (SourceLocation.Local p) w = (Except.ok p, [])) ∧
    (∀ (r : Repository) (w : World),
       (SourceLocation.get (SourceLocation.Remote r) w).2
         = [Effect.Checkout r.repo.url r.rev r.db_path r.dest.asRef] ∧
       (w.checkout r.repo.url r.rev r.db_path r.dest.asRef = Except.ok () →
         (SourceLocation.get (SourceLocation.Remote r) w).1 = Except.ok r.dest.asRef)) := by
  refine ⟨fun p w => rfl, fun r w => ⟨?_, fun h => ?_⟩⟩
  · cases hw : r.checkout w with
    | error msg => simp [SourceLocation.get, hw]
    | ok u => simp [SourceLocation.get, hw]
  · simp [SourceLocation.get, Repository.checkout, h]

/-- C8 witness: resolving the concrete remote repository in the always-ok
environment yields its destination directory. -/
theorem sourceLocation_get_resolution_witness :
    (SourceLocation.get (SourceLocation.Remote rRemote) tWorld).1 = Except.ok "dst" :=
  (sourceLocation_get_resolution.2 rRemote tWorld).2 rfl

/-! Stage-by-stage characterizations of `Binder::generate`. -/

/-- When source resolution fails, `generate` propagates that error with only
the resolution trace. -/
theorem generate_eq_of_get_error (b : Binder) (w : World) (msg : String)
    (h : (b.location.get w).1 = Except.error msg) :
    b.generate w = (Except.error msg, (b.location.get w).2) := by
  simp only [Binder.generate, h]

/-- When the hook stage fails, `generate` propagates that error having
attempted only resolution and hooks. -/
theorem generate_eq_of_hooks_error (b : Binder) (w : World) (root : PathBuf) (msg : String)
    (h1 : (b.location.get w).1 = Except.ok root)
    (h2 : (runCommands w (b.effectiveConfig w root).root b.commands).1 = Except.error msg) :
    b.generate w
      = (Except.error msg,
         (b.location.get w).2 ++ (runCommands w (b.effectiveConfig w root).root b.commands).2) := by
  simp only [Binder.generate, h1, h2]

/-- When the compile call itself fails, `generate` propagates that error with
the trace up to the compile attempt. -/
theorem generate_eq_of_compile_err (b : Binder) (w : World) (root : PathBuf)
    (proj : Project) (msg : String)
    (h1 : (b.location.get w).1 = Except.ok root)
    (h2 : (runCommands w (b.effectiveConfig w root).root b.commands).1 = Except.ok ())
    (h3 : w.project (b.effectiveConfig w root) = Except.ok proj)
    (h4 : w.compile (b.applyKeepArtifacts proj) = Except.error msg) :
    b.generate w
      = (Except.error msg,
         (b.location.get w).2 ++ (runCommands w (b.effectiveConfig w root).root b.commands).2
           ++ b.keepEffects ++ [Effect.Compile (b.effectiveConfig w root).root]) := by
  simp only [Binder.generate, h1, h2, h3, h4]

/-- When compilation reports compiler errors, `generate` aborts with the
formatted diagnostics and the trace ends at the compile attempt. -/
theorem generate_eq_of_compile_errors (b : Binder) (w : World) (root : PathBuf)
    (proj : Project) (out : CompileOutput)
    (h1 : (b.location.get w).1 = Except.ok root)
    (h2 : (runCommands w (b.effectiveConfig w root).root b.commands).1 = Except.ok ())
    (h3 : w.project (b.effectiveConfig w root) = Except.ok proj)
    (h4 : w.compile (b.applyKeepArtifacts proj) = Except.ok out)
    (h5 : out.hasCompilerErrors = true) :
    b.generate w
      = (Except.error ("Compiled with errors:\n" ++ out.formatted),
         (b.location.get w).2 ++ (runCommands w (b.effectiveConfig w root).root b.commands).2
           ++ b.keepEffects ++ [Effect.Compile (b.effectiveConfig w root).root]) := by
  simp only [Binder.generate, h1, h2, h3, h4, h5, if_true]

/-- When binding generation fails after a clean compile, `generate`
propagates that error after attempting the binding generation. -/
theorem generate_eq_of_gb_error (b : Binder) (w : World) (root : PathBuf)
    (proj : Project) (out : CompileOutput) (msg : String)
    (h1 : (b.location.get w).1 = Except.ok root)
    (h2 : (runCommands w (b.effectiveConfig w root).root b.commands).1 = Except.ok ())
    (h3 : w.project (b.effectiveConfig w root) = Except.ok proj)
    (h4 : w.compile (b.applyKeepArtifacts proj) = Except.ok out)
    (h5 : out.hasCompilerErrors = false)
    (h6 : w.generateBindings (b.applyKeepArtifacts proj).artifacts = Except.error msg) :
    b.generate w
      = (Except.error msg,
         ((b.location.get w).2 ++ (runCommands w (b.effectiveConfig w root).root b.commands).2
            ++ b.keepEffects ++ [Effect.Compile (b.effectiveConfig w root).root])
           ++ [Effect.GenerateBindings (b.applyKeepArtifacts proj).artifacts]) := by
  simp only [Binder.generate, h1, h2, h3, h4, h5, Bool.false_eq_true, if_false, h6]

/-- When the whole pipeline reaches the write stage, the result is the
write outcome and the trace ends with the binding generation and the write
to the configured module path (default `src/contracts`). -/
theorem generate_eq_of_success (b : Binder) (w : World) (root : PathBuf)
    (proj : Project) (out : CompileOutput)
    (h1 : (b.location.get w).1 = Except.ok root)
    (h2 : (runCommands w (b.effectiveConfig w root).root b.commands).1 = Except.ok ())
    (h3 : w.project (b.effectiveConfig w root) = Except.ok proj)
    (h4 : w.compile (b.applyKeepArtifacts proj) = Except.ok out)
    (h5 : out.hasCompilerErrors = false)
    (h6 : w.generateBindings (b.applyKeepArtifacts proj).artifacts = Except.ok ()) :
    b.generate w
      = (w.writeBindings (b.bindings.getD "src/contracts"),
         ((b.location.get w).2 ++ (runCommands w (b.effectiveConfig w root).root b.commands).2
            ++ b.keepEffects ++ [Effect.Compile (b.effectiveConfig w root).root])
           ++ [Effect.GenerateBindings (b.applyKeepArtifacts proj).artifacts,
               Effect.WriteBindings (b.bindings.getD "src/contracts")]) := by
  simp only [Binder.generate, h1, h2, h3, h4, h5, Bool.false_eq_true, if_false, h6]

/-- Once resolution, hooks and project construction succeed, the compile
attempt is always in the trace, and so is every hook effect — whatever the
compiler, binding generator and writer then do. -/
theorem generate_compile_attempted (b : Binder) (w : World) (root : PathBuf) (proj : Project)
    (h1 : (b.location.get w).1 = Except.ok root)
    (h2 : (runCommands w (b.effectiveConfig w root).root b.commands).1 = Except.ok ())
    (h3 : w.project (b.effectiveConfig w root) = Except.ok proj) :
    Effect.Compile (b.effectiveConfig w root).root ∈ (b.generate w).2 ∧
    ∀ e ∈ (runCommands w (b.effectiveConfig w root).root b.commands).2,
      e ∈ (b.generate w).2 := by
  cases hcomp : w.compile (b.applyKeepArtifacts proj) with
  | error msg =>
    rw [generate_eq_of_compile_err b w root proj msg h1 h2 h3 hcomp]
    constructor
    · simp
    · intro e he; simp [List.mem_append, he]
  | ok out =>
    cases hce : out.hasCompilerErrors with
    | true =>
      rw [generate_eq_of_compile_errors b w root proj out h1 h2 h3 hcomp hce]
      constructor
      · simp
      · intro e he; simp [List.mem_append, he]
    | false =>
      cases hgb : w.generateBindings (b.applyKeepArtifacts proj).artifacts with
      | error msg =>
        rw [generate_eq_of_gb_error b w root proj out msg h1 h2 h3 hcomp hce hgb]
        constructor
        · simp
        · intro e he; simp [List.mem_append, he]
      | ok u =>
        cases u
        rw [generate_eq_of_success b w root proj out h1 h2 h3 hcomp hce hgb]
        constructor
        · simp
        · intro e he; simp [List.mem_append, he]

/-! C5 — an empty hook command aborts before compilation. -/

/-- C5: whenever the configured hook list contains the empty command,
`generate` fails, the compile stage is never attempted, every hook that did
run comes strictly before the first empty command, and — when resolution
succeeded and every hook before the first empty one spawned — the error is
the literal empty-command message. -/
theorem generate_empty_command_aborts (b : Binder) (w : World) (h : [] ∈ b.commands) :
    exceptIsOk (b.generate w).1 = false ∧
    (∀ r, Effect.Compile r ∉ (b.generate w).2) ∧
    (∀ args cwd, Effect.RunCommand args cwd ∈ (b.generate w).2 →
       args ∈ b.commands.takeWhile (fun c => !c.isEmpty)) ∧
    (∀ root, (b.location.get w).1 = Except.ok root →
       (∀ c ∈ b.commands.takeWhile (fun c => !c.isEmpty),
          exceptIsOk (w.spawn c (b.effectiveConfig w root).root) = true) →
       (b.generate w).1 = Except.error "Command can\x27t be empty") := by
  cases hget : (b.location.get w).1 with
  | error msg =>
    have he := generate_eq_of_get_error b w msg hget
    refine ⟨by rw [he]; rfl, ?_, ?_, ?_⟩
    · intro r hr
      rw [he] at hr
      obtain ⟨u, rv, db, d, hc⟩ := get_effects_shape b.location w _ hr
      exact Effect.noConfusion hc
    · intro args cwd hr
      rw [he] at hr
      obtain ⟨u, rv, db, d, hc⟩ := get_effects_shape b.location w _ hr
      exact Effect.noConfusion hc
    · intro root hroot _
      exact Except.noConfusion hroot
  | ok root =>
    have hfail := runCommands_error_of_mem_nil w (b.effectiveConfig w root).root b.commands h
    obtain ⟨msg, hmsg⟩ :
        ∃ msg, (runCommands w (b.effectiveConfig w root).root b.commands).1
          = Except.error msg := by
      cases hm : (runCommands w (b.effectiveConfig w root).root b.commands).1 with
      | error m => exact ⟨m, rfl⟩
      | ok u => rw [hm] at hfail; simp [exceptIsOk] at hfail
    have he := generate_eq_of_hooks_error b w root msg hget hmsg
    refine ⟨by rw [he]; rfl, ?_, ?_, ?_⟩
    · intro r hr
      rw [he] at hr
      rcases List.mem_append.mp hr with hr | hr
      · obtain ⟨u, rv, db, d, hc⟩ := get_effects_shape b.location w _ hr
        exact Effect.noConfusion hc
      · obtain ⟨args, ha, _⟩ := runCommands_effects_shape w _ b.commands _ hr
        exact Effect.noConfusion ha
    · intro args cwd hr
      rw [he] at hr
      rcases List.mem_append.mp hr with hr | hr
      · obtain ⟨u, rv, db, d, hc⟩ := get_effects_shape b.location w _ hr
        exact Effect.noConfusion hc
      · obtain ⟨args', ha, hm⟩ := runCommands_effects_shape w _ b.commands _ hr
        injection ha with ha1 ha2
        rw [ha1]
        exact hm
    · intro root' hroot' hok
      injection hroot' with hr
      subst hr
      have hmsg2 := runCommands_empty_msg w (b.effectiveConfig w root).root b.commands h hok
      rw [hmsg] at hmsg2
      injection hmsg2 with hm2
      rw [he]
      rw [hm2]

/-- C5 witness: the concrete binder whose hook list is `[["a"], [], ["b"]]`
fails with the empty-command message and never reaches the compiler. -/
theorem generate_empty_command_aborts_witness :
    exceptIsOk (bEmptyHook.generate tWorld).1 = false ∧
    Effect.Compile "proj" ∉ (bEmptyHook.generate tWorld).2 ∧
    (bEmptyHook.generate tWorld).1 = Except.error "Command can\x27t be empty" := by
  have h := generate_empty_command_aborts bEmptyHook tWorld (by decide)
  exact ⟨h.1, h.2.1 "proj", h.2.2.2 "proj" rfl (by decide)⟩

/-! C6 — compiler errors abort; warnings are not fatal. -/

/-- C6: when the compiler output reports compilation errors, `generate`
aborts with the formatted diagnostics and neither binding generation nor
output writing is attempted; when it reports none — whatever its warnings
say — binding generation is attempted. -/
theorem generate_compile_errors_abort (b : Binder) (w : World) (root : PathBuf)
    (proj : Project) (out : CompileOutput)
    (h1 : (b.location.get w).1 = Except.ok root)
    (h2 : (runCommands w (b.effectiveConfig w root).root b.commands).1 = Except.ok ())
    (h3 : w.project (b.effectiveConfig w root) = Except.ok proj)
    (h4 : w.compile (b.applyKeepArtifacts proj) = Except.ok out) :
    (out.hasCompilerErrors = true →
       (b.generate w).1 = Except.error ("Compiled with errors:\n" ++ out.formatted) ∧
       (∀ p, Effect.GenerateBindings p ∉ (b.generate w).2) ∧
       (∀ p, Effect.WriteBindings p ∉ (b.generate w).2)) ∧
    (out.hasCompilerErrors = false →
       Effect.GenerateBindings (b.applyKeepArtifacts proj).artifacts ∈ (b.generate w).2) := by
  constructor
  · intro hce
    have he := generate_eq_of_compile_errors b w root proj out h1 h2 h3 h4 hce
    refine ⟨by rw [he], ?_, ?_⟩
    · intro p hp
      rw [he] at hp
      rcases List.mem_append.mp hp with hp | hp
      · rcases List.mem_append.mp hp with hp | hp
        · rcases List.mem_append.mp hp with hp | hp
          · obtain ⟨u, rv, db, d, hc⟩ := get_effects_shape b.location w _ hp
            exact Effect.noConfusion hc
          · obtain ⟨args, ha, _⟩ := runCommands_effects_shape w _ b.commands _ hp
            exact Effect.noConfusion ha
        · obtain ⟨q, hq⟩ := keepEffects_shape b _ hp
          exact Effect.noConfusion hq
      · rcases List.mem_singleton.mp hp with hp
        exact Effect.noConfusion hp
    · intro p hp
      rw [he] at hp
      rcases List.mem_append.mp hp with hp | hp
      · rcases List.mem_append.mp hp with hp | hp
        · rcases List.mem_append.mp hp with hp | hp
          · obtain ⟨u, rv, db, d, hc⟩ := get_effects_shape b.location w _ hp
            exact Effect.noConfusion hc
          · obtain ⟨args, ha, _⟩ := runCommands_effects_shape w _ b.commands _ hp
            exact Effect.noConfusion ha
        · obtain ⟨q, hq⟩ := keepEffects_shape b _ hp
          exact Effect.noConfusion hq
      · rcases List.mem_singleton.mp hp with hp
        exact Effect.noConfusion hp
  · intro hce
    cases hgb : w.generateBindings (b.applyKeepArtifacts proj).artifacts with
    | error msg =>
      rw [generate_eq_of_gb_error b w root proj out msg h1 h2 h3 h4 hce hgb]
      simp
    | ok u =>
      cases u
      rw [generate_eq_of_success b w root proj out h1 h2 h3 h4 hce hgb]
      simp

/-- C6 witness: with the compiler reporting errors `E1`, the concrete
binder aborts with the formatted diagnostics and binding generation never
runs. -/
theorem generate_compile_errors_abort_witness :
    (bPlain.generate wErr).1 = Except.error "Compiled with errors:\nE1" ∧
    Effect.GenerateBindings "out" ∉ (bPlain.generate wErr).2 := by
  have h := generate_compile_errors_abort bPlain wErr "proj" { artifacts := "out" }
      { hasCompilerErrors := true, hasWarnings := false, formatted := "E1" } rfl rfl rfl rfl
  exact ⟨(h.1 rfl).1, (h.1 rfl).2.1 "out"⟩

/-! C7 — bindings are written to the configured path, default
`src/contracts`. -/

/-- C7: when the pipeline reaches the write stage, the module written is
exactly the configured bindings path, defaulting to `src/contracts` when
none was configured. -/
theorem generate_write_module_path (b : Binder) (w : World) (root : PathBuf)
    (proj : Project) (out : CompileOutput)
    (h1 : (b.location.get w).1 = Except.ok root)
    (h2 : (runCommands w (b.effectiveConfig w root).root b.commands).1 = Except.ok ())
    (h3 : w.project (b.effectiveConfig w root) = Except.ok proj)
    (h4 : w.compile (b.applyKeepArtifacts proj) = Except.ok out)
    (h5 : out.hasCompilerErrors = false)
    (h6 : w.generateBindings (b.applyKeepArtifacts proj).artifacts = Except.ok ()) :
    Effect.WriteBindings (b.bindings.getD "src/contracts") ∈ (b.generate w).2 ∧
    (∀ p, Effect.WriteBindings p ∈ (b.generate w).2 → p = b.bindings.getD "src/contracts") ∧
    (b.bindings = none → Effect.WriteBindings "src/contracts" ∈ (b.generate w).2) ∧
    (∀ q, b.bindings = some q → Effect.WriteBindings q ∈ (b.generate w).2) := by
  have he := generate_eq_of_success b w root proj out h1 h2 h3 h4 h5 h6
  refine ⟨by rw [he]; simp, ?_, ?_, ?_⟩
  · intro p hp
    rw [he] at hp
    rcases List.mem_append.mp hp with hp | hp
    · rcases List.mem_append.mp hp with hp | hp
      · rcases List.mem_append.mp hp with hp | hp
        · rcases List.mem_append.mp hp with hp | hp
          · obtain ⟨u, rv, db, d, hc⟩ := get_effects_shape b.location w _ hp
            exact Effect.noConfusion hc
          · obtain ⟨args, ha, _⟩ := runCommands_effects_shape w _ b.commands _ hp
            exact Effect.noConfusion ha
        · obtain ⟨q, hq⟩ := keepEffects_shape b _ hp
          exact Effect.noConfusion hq
      · rcases List.mem_singleton.mp hp with hp
        exact Effect.noConfusion hp
    · rcases List.mem_cons.mp hp with hp | hp
      · exact Effect.noConfusion hp
      · have h2 := List.mem_singleton.mp hp
        simpa using h2
  · intro hnone
    rw [he]
    simp [hnone]
  · intro q hq
    rw [he]
    simp [hq]

/-- C7 witness: the concrete binder with no configured bindings path writes
to the default `src/contracts`. -/
theorem generate_write_module_path_witness :
    Effect.WriteBindings "src/contracts" ∈ (bPlain.generate tWorld).2 := by
  have h := generate_write_module_path bPlain tWorld "proj" { artifacts := "out" }
      { hasCompilerErrors := false, hasWarnings := true, formatted := "" } rfl rfl rfl rfl rfl rfl
  exact h.2.2.1 rfl

/-! C1 — a non-zero hook exit status does not abort the pipeline. -/

/-- C1 counterexample: in the concrete configuration with hook commands
`[["false"], ["echo", "hi"]]`, the first hook spawns successfully and exits
with status 1, yet the second hook is still executed and the compile stage
is still reached — refuting that a non-zero exit status aborts the
pipeline. -/
theorem generate_runs_hooks_after_nonzero_exit :
    tWorld.spawn ["false"] "proj"
      = Except.ok { exitCode := 1, stdout := "", stderr := "" } ∧
    ({ exitCode := 1, stdout := "", stderr := "" } : CommandOutput).exitCode ≠ 0 ∧
    Effect.RunCommand ["echo", "hi"] "proj" ∈ (bHooks.generate tWorld).2 ∧
    Effect.Compile "proj" ∈ (bHooks.generate tWorld).2 := by
  refine ⟨rfl, by decide, by decide, by decide⟩

/-- C1 amended: in `generate`, only an empty command or a spawn failure is
fatal during the hook stage; a hook that spawns successfully but exits with
a non-zero status does not abort — with hooks `[A, B]` where `A` spawns and
exits non-zero and `B` spawns, `B` is still executed and the compile stage
is still reached. -/
theorem generate_nonzero_exit_not_fatal (b : Binder) (w : World) (A B : List String)
    (root : PathBuf) (o o' : CommandOutput) (proj : Project)
    (hc : b.commands = [A, B])
    (h1 : (b.location.get w).1 = Except.ok root)
    (hA : A ≠ []) (hB : B ≠ [])
    (hsA : w.spawn A (b.effectiveConfig w root).root = Except.ok o)
    (hnz : o.exitCode ≠ 0)
    (hsB : w.spawn B (b.effectiveConfig w root).root = Except.ok o')
    (hp : w.project (b.effectiveConfig w root) = Except.ok proj) :
    Effect.RunCommand B (b.effectiveConfig w root).root ∈ (b.generate w).2 ∧
    Effect.Compile (b.effectiveConfig w root).root ∈ (b.generate w).2 := by
  have hrc : runCommands w (b.effectiveConfig w root).root b.commands
      = (Except.ok (), [Effect.RunCommand A (b.effectiveConfig w root).root,
                        Effect.RunCommand B (b.effectiveConfig w root).root]) := by
    rw [hc]
    cases A with
    | nil => exact absurd rfl hA
    | cons a as =>
      cases B with
      | nil => exact absurd rfl hB
      | cons x xs => simp [runCommands, hsA, hsB]
  have hmem := generate_compile_attempted b w root proj h1 (by rw [hrc]) hp
  refine ⟨?_, hmem.1⟩
  apply hmem.2
  rw [hrc]
  simp

/-- C1 amended witness: the concrete binder with hooks
`[["false"], ["echo", "hi"]]` in the environment where `false` exits 1
still executes the second hook and reaches the compile stage. -/
theorem generate_nonzero_exit_not_fatal_witness :
    Effect.RunCommand ["echo", "hi"] "proj" ∈ (bHooks.generate tWorld).2 ∧
    Effect.Compile "proj" ∈ (bHooks.generate tWorld).2 :=
  generate_nonzero_exit_not_fatal bHooks tWorld ["false"] ["echo", "hi"] "proj"
    { exitCode := 1, stdout := "", stderr := "" }
    { exitCode := 0, stdout := "", stderr := "" }
    { artifacts := "out" } rfl rfl (by decide) (by decide) rfl (by decide)
    rfl rfl

end FoundryBinder
